import Mathlib

/-!
Shallow embedding of `src/extensions/quota.ts` — the canonical revision of the
pi-antigravity-quota extension — together with proofs about its quota-report
pipeline (filter → normalize → sort → group → render) and its command handler.

Modelling conventions:
* JS strings are `List Char` (abbreviated `Str`).  `toLowerCase` is modelled by
  the ASCII case map `Char.toLower`, `includes` by list-infix containment, and
  the `localeCompare` sort order by code-point lexicographic comparison.
* JS numbers holding quota fractions are exact rationals `ℚ`; timestamps and
  millisecond arithmetic are `ℤ`.  `Math.round`, `Math.ceil` and `Math.floor`
  are written as integer computations (so the kernel can evaluate them), each
  accompanied by a lemma identifying it with the `⌊⌋`/`⌈⌉` description.
* The one JS runtime exception reachable in the rendering code
  (`String.prototype.repeat` with a negative count) is `JsValue.exn`; the
  handler's `try`/`catch` turns it into an error notice.
* The asynchronous `fetchQuota` call is effectful, so the handler is embedded
  as a function of the fetch's result; the `fetched` flag of the outcome
  records whether the remote call was reached.
* `new Date(iso).getTime()` is not re-modelled: an ISO timestamp field is
  represented by its parsed epoch-millisecond instant, and `Date.now()` is an
  explicit `now` parameter.
-/

namespace AntigravityQuota

/-- JS strings, as lists of characters. -/
abbrev Str := List Char

/-- Coercion from Lean string literals into the JS-string model. -/
def strOf (s : String) : Str := s.data

/-- Result of a JS computation that can throw: a value or an exception. -/
inductive JsValue (α : Type) where
  | ok (a : α)
  | exn
  deriving DecidableEq

instance : Monad JsValue where
  pure := JsValue.ok
  bind m f := match m with | .ok a => f a | .exn => .exn

/-- JS `Math.round`: round half toward positive infinity, `⌊q + 1/2⌋`. -/
def jsRound (q : ℚ) : ℤ := ⌊q + 1/2⌋

/-- `Math.round (remaining * 100)` from the percent normalisation in the
handler, written as an integer computation on the fraction's numerator and
denominator so that the kernel can evaluate it; `roundTimes100_eq_jsRound`
identifies it with `jsRound (q * 100)`. -/
def roundTimes100 (q : ℚ) : ℤ := (200 * q.num + (q.den : ℤ)) / (2 * (q.den : ℤ))

/-- `Math.round ((p / 100) * w)` from `getProgressBar`, as an integer
computation; `roundedFill_eq_jsRound` identifies it with
`jsRound ((p / 100) * w)`. -/
def roundedFill (p w : ℤ) : ℤ := (2 * p * w + 100) / 200

/-- `Math.ceil (a / b)` for a positive divisor `b`, as an integer computation;
`ceilDiv_eq_ceil` identifies it with `⌈a / b⌉`.  (`Int` division `/` is
floor division for positive divisors, which is also exactly JS
`Math.floor (a / b)`.) -/
def ceilDiv (a b : ℤ) : ℤ := -(-a / b)

/-- JS `String.prototype.toLowerCase` (ASCII case mapping). -/
def toLowerStr (s : Str) : Str := s.map Char.toLower

/-- JS `hay.includes needle`: substring containment. -/
def includesStr (hay needle : Str) : Bool := decide (needle <:+: hay)

/-- JS truthiness of an optional string: `undefined` and `""` are falsy. -/
def truthy : Option Str → Bool
  | none => false
  | some s => !s.isEmpty

/-- JS `x || y` on optional strings: `y` exactly when `x` is falsy. -/
def jsOrElse (x y : Option Str) : Option Str := if truthy x then x else y

/-- JS `String.prototype.padStart` with spaces (never truncates). -/
def padStart (s : Str) (w : ℕ) : Str := List.replicate (w - s.length) ' ' ++ s

/-- JS `String.prototype.padEnd` with spaces (never truncates). -/
def padEnd (s : Str) (w : ℕ) : Str := s ++ List.replicate (w - s.length) ' '

/-- JS `String.prototype.repeat`: throws `RangeError` on a negative count. -/
def jsRepeat (c : Char) (count : ℤ) : JsValue Str :=
  if count < 0 then .exn else .ok (List.replicate count.toNat c)

/-- JS number-to-string conversion for the integers interpolated into the
report (`hours`, `mins`, `remainingPercent`). -/
def intToStr (n : ℤ) : Str := (toString n).data

/-- The `quotaInfo` block of a raw model entry.  `resetTime` is the parsed
epoch-millisecond instant of the ISO timestamp string. -/
structure QuotaInfo where
  remainingFraction : Option ℚ
  limit : Option Str
  resetTime : Option ℤ
  deriving DecidableEq

/-- One raw model entry of the remote response.  The `model` id field is never
read by the pipeline and is omitted; an absent `isInternal` is falsy in JS and
is modelled as `false`. -/
structure RawModel where
  displayName : Option Str
  isInternal : Bool
  quotaInfo : Option QuotaInfo
  deriving DecidableEq

/-- `CloudCodeQuotaResponse`; `models` is `Object.values` of the mapping in
insertion order (the keys are never used). -/
structure CloudCodeQuotaResponse where
  models : Option (List RawModel)
  deriving DecidableEq

/-- The credential record stored under the provider key of `auth.json`. -/
structure AntigravityAuth where
  access : Option Str
  refresh : Option Str
  projectId : Option Str
  token : Option Str
  accessToken : Option Str
  deriving DecidableEq

/-- The normalized per-model display record built by the handler. -/
structure ModelDisplay where
  name : Str
  icon : Str
  remainingPercent : ℤ
  resetTime : Str
  rawResetTime : ℤ
  deriving DecidableEq

def ANSI_RESET : Str := strOf "\x1b[0m"

def ANSI_BOLD : Str := strOf "\x1b[1m"

def ANSI_DIM : Str := strOf "\x1b[2m"

def ANSI_RED : Str := strOf "\x1b[31m"

def ANSI_YELLOW : Str := strOf "\x1b[33m"

def ANSI_GREEN : Str := strOf "\x1b[32m"

def ANSI_BLUE : Str := strOf "\x1b[34m"

/-- The colour choice made inside `getProgressBar` (`let color = GREEN;
if (p <= 10) RED; else if (p <= 30) YELLOW`). -/
def barColor (percentRemaining : ℤ) : Str :=
  if percentRemaining ≤ 10 then ANSI_RED
  else if percentRemaining ≤ 30 then ANSI_YELLOW
  else ANSI_GREEN

/-- `getProgressBar`.  The filled glyphs, then the dim escape, then the empty
glyphs; a negative repeat count throws. -/
def getProgressBar (percentRemaining : ℤ) (width : ℤ) : JsValue Str := do
  let filled := roundedFill percentRemaining width
  let empty := width - filled
  let color := barColor percentRemaining
  let filledGlyphs ← jsRepeat '━' filled
  let emptyGlyphs ← jsRepeat '┄' empty
  pure (color ++ filledGlyphs ++ ANSI_DIM ++ emptyGlyphs ++ ANSI_RESET)

/-- `getModelIcon`: first matching keyword rule wins, default glyph last. -/
def getModelIcon (name : Str) : Str :=
  let lower := toLowerStr name
  if includesStr lower (strOf "claude") then strOf "🧠"
  else if includesStr lower (strOf "gpt") then strOf "🤖"
  else if includesStr lower (strOf "image") || includesStr lower (strOf "imagen") then strOf "🎨"
  else if includesStr lower (strOf "gemini") then strOf "✨"
  else strOf "⚡"

/-- `formatRelativeTime`.  `diffMins % 60` agrees with the JS `%` because
`diffMins` is positive in the branch where it is used, and `Int` division by
`60` is exactly `Math.floor (diffMins / 60)`. -/
def formatRelativeTime (resetTime : Option ℤ) (now : ℤ) : Str :=
  match resetTime with
  | none => strOf "-"
  | some target =>
    let diffMs := target - now
    if diffMs ≤ 0 then strOf "Ready"
    else
      let diffMins := ceilDiv diffMs (1000 * 60)
      let hours := diffMins / 60
      let mins := diffMins % 60
      if hours > 0 then intToStr hours ++ strOf "h " ++ intToStr mins ++ strOf "m"
      else intToStr mins ++ strOf "m"

/-- `formatLimit` — present in the source but never called by any live code
path of the handler. -/
def formatLimit (limit : Option Str) : Str :=
  match limit with
  | none => strOf "-"
  | some l => if l.isEmpty then strOf "-" else l

/-- The handler's first filter: `!m.isInternal && m.displayName` (JS
truthiness: an absent or empty display name fails). -/
def passesInternalNameFilter (m : RawModel) : Bool :=
  !m.isInternal && truthy m.displayName

/-- The handler's second filter: `!m.displayName.includes "Gemini 2.5"`. -/
def passesDeprecatedFilter (m : RawModel) : Bool :=
  !includesStr (m.displayName.getD []) (strOf "Gemini 2.5")

/-- The two chained `.filter` calls of the handler. -/
def filterModels (models : List RawModel) : List RawModel :=
  (models.filter passesInternalNameFilter).filter passesDeprecatedFilter

/-- The `.map` body of the handler: one normalized display record. -/
def toModelDisplay (now : ℤ) (m : RawModel) : ModelDisplay :=
  let name := m.displayName.getD (strOf "Unknown")
  let remaining := (m.quotaInfo.bind QuotaInfo.remainingFraction).getD 0
  { name := name
    icon := getModelIcon name
    remainingPercent := roundTimes100 remaining
    resetTime := formatRelativeTime (m.quotaInfo.bind QuotaInfo.resetTime) now
    rawResetTime := (m.quotaInfo.bind QuotaInfo.resetTime).getD 0 }

/-- Code-point comparison on names, modelling the `localeCompare` order for
the model names at hand. -/
def lexLe : Str → Str → Bool
  | [], _ => true
  | _ :: _, [] => false
  | a :: as, b :: bs =>
    if a.val < b.val then true
    else if b.val < a.val then false
    else lexLe as bs

def nameLe (a b : ModelDisplay) : Bool := lexLe a.name b.name

def insertSorted (m : ModelDisplay) : List ModelDisplay → List ModelDisplay
  | [] => [m]
  | b :: bs => if nameLe m b then m :: b :: bs else b :: insertSorted m bs

/-- Stable insertion sort modelling `Array.prototype.sort` with the
`(a, b) => a.name.localeCompare(b.name)` comparator. -/
def sortModels : List ModelDisplay → List ModelDisplay
  | [] => []
  | a :: as => insertSorted a (sortModels as)

/-- The full classifier chain producing `processedModels`. -/
def processModels (now : ℤ) (models : List RawModel) : List ModelDisplay :=
  sortModels ((filterModels models).map (toModelDisplay now))

/-- The three family buckets, in their fixed order. -/
structure Groups where
  claude : List ModelDisplay
  gemini : List ModelDisplay
  other : List ModelDisplay
  deriving DecidableEq

/-- The body of the grouping loop: push into the first matching bucket. -/
def classifyStep (g : Groups) (m : ModelDisplay) : Groups :=
  if includesStr (toLowerStr m.name) (strOf "claude") then
    { g with claude := g.claude ++ [m] }
  else if includesStr (toLowerStr m.name) (strOf "gemini") then
    { g with gemini := g.gemini ++ [m] }
  else { g with other := g.other ++ [m] }

/-- The grouping loop (`for (const m of processedModels) ...`). -/
def groupModels (l : List ModelDisplay) : Groups :=
  l.foldl classifyStep ⟨[], [], []⟩

def HEADER_MODEL : Str := strOf "Model"

def HEADER_USAGE : Str := strOf "Usage"

def HEADER_RESET : Str := strOf "Resets"

def GAP : Str := strOf "   "

def USAGE_COL_WIDTH : ℕ := 15

/-- `Math.max (headerLen, ...lengths)`. -/
def maxLen (headerLen : ℕ) (l : List Str) : ℕ := (l.map List.length).foldl max headerLen

def maxNameLen (all : List ModelDisplay) : ℕ :=
  maxLen HEADER_MODEL.length (all.map ModelDisplay.name)

def maxResetLen (all : List ModelDisplay) : ℕ :=
  maxLen HEADER_RESET.length (all.map ModelDisplay.resetTime)

/-- The percent-text colour choice in `renderGroup` (`let pctColor = GREEN;
if (p <= 10) RED; else if (p <= 30) YELLOW`). -/
def percentColor (p : ℤ) : Str :=
  if p ≤ 10 then ANSI_RED else if p ≤ 30 then ANSI_YELLOW else ANSI_GREEN

/-- One model row of `renderGroup`. -/
def renderModelLine (mn mr : ℕ) (m : ModelDisplay) : JsValue Str := do
  let bar ← getProgressBar m.remainingPercent 10
  let pctText := percentColor m.remainingPercent
    ++ padStart (intToStr m.remainingPercent) 3 ++ strOf "%" ++ ANSI_RESET
  let usageContent := bar ++ strOf " " ++ pctText
  let resetColor :=
    if m.resetTime ≠ strOf "-" ∧ m.resetTime ≠ strOf "Ready" then ANSI_BLUE else ANSI_DIM
  pure (m.icon ++ strOf " " ++ padEnd m.name mn ++ GAP ++ usageContent ++ GAP
    ++ resetColor ++ padStart m.resetTime mr ++ ANSI_RESET)

/-- `renderGroup`'s row loop over one bucket (the group title argument is
never used by the source either). -/
def renderLines (mn mr : ℕ) : List ModelDisplay → JsValue (List Str)
  | [] => pure []
  | m :: ms => do
    let line ← renderModelLine mn mr m
    let rest ← renderLines mn mr ms
    pure (line :: rest)

/-- The group-rendering block of the handler: the three `renderGroup` calls
with the two conditional spacer pushes between them. -/
def renderGroupsSection (mn mr : ℕ) (g : Groups) : JsValue (List Str) := do
  let claudeLines ← renderLines mn mr g.claude
  let geminiLines ← renderLines mn mr g.gemini
  let otherLines ← renderLines mn mr g.other
  pure (claudeLines
    ++ (if !g.claude.isEmpty && !g.gemini.isEmpty then [([] : Str)] else [])
    ++ geminiLines
    ++ (if (!g.claude.isEmpty || !g.gemini.isEmpty) && !g.other.isEmpty then [([] : Str)] else [])
    ++ otherLines)

def separatorLine (totalWidth : ℕ) : Str :=
  ANSI_DIM ++ List.replicate totalWidth '─' ++ ANSI_RESET

def titleLine : Str := ANSI_BOLD ++ strOf "⚡ Antigravity Quota Status" ++ ANSI_RESET

def headerLine (mn mr : ℕ) : Str :=
  ANSI_DIM ++ strOf "   " ++ padEnd HEADER_MODEL mn ++ GAP
    ++ padEnd HEADER_USAGE USAGE_COL_WIDTH ++ GAP ++ padStart HEADER_RESET mr ++ ANSI_RESET

/-- The table-building part of the handler, from the width computations to the
final `lines.join "\n"`. -/
def renderReport (processed : List ModelDisplay) : JsValue Str := do
  let g := groupModels processed
  let mn := maxNameLen processed
  let mr := maxResetLen processed
  let totalWidth := 3 + mn + GAP.length + USAGE_COL_WIDTH + GAP.length + mr
  let sep := separatorLine totalWidth
  let body ← renderGroupsSection mn mr g
  pure (List.intercalate ['\n'] ([titleLine, sep, headerLine mn mr, sep] ++ body ++ [sep]))

inductive NoticeLevel where
  | info
  | warning
  | error
  deriving DecidableEq

/-- One `ctx.ui.notify` call. -/
structure Notice where
  msg : Str
  level : NoticeLevel
  deriving DecidableEq

/-- Outcome of one `/quota` invocation: the notices sent to `ctx.ui.notify`
in order, whether `fetchQuota` was reached, and the rendered report when one
was emitted.  The interpolated exception text of the `catch` block is
abstracted to the fixed prefix of its message. -/
structure HandlerOutcome where
  notices : List Notice
  fetched : Bool
  rendered : Option Str
  deriving DecidableEq

/-- `auth.access || auth.accessToken || auth.token`. -/
def selectToken (auth : AntigravityAuth) : Option Str :=
  jsOrElse (jsOrElse auth.access auth.accessToken) auth.token

def fetchingNotice : Notice := ⟨strOf "Fetching Antigravity quota...", .info⟩

def fetchFailedNotice : Notice := ⟨strOf "Failed to fetch quota data.", .error⟩

def noQuotaInfoNotice : Notice := ⟨strOf "No quota information available.", .warning⟩

/-- The `/quota` command handler, as a function of the credential-loader
result and the fetch result. -/
def handler (auth : Option AntigravityAuth) (fetchResult : Option CloudCodeQuotaResponse)
    (now : ℤ) : HandlerOutcome :=
  match auth with
  | none => ⟨[⟨strOf "Antigravity auth not found (~/.pi/agent/auth.json)", .warning⟩], false, none⟩
  | some a =>
    if !truthy (selectToken a) then
      ⟨[⟨strOf "No access token found in auth.json", .warning⟩], false, none⟩
    else
      match fetchResult with
      | none => ⟨[fetchingNotice, fetchFailedNotice], true, none⟩
      | some data =>
        match data.models with
        | none => ⟨[fetchingNotice, fetchFailedNotice], true, none⟩
        | some models =>
          let processed := processModels now models
          if processed.isEmpty then
            ⟨[fetchingNotice, noQuotaInfoNotice], true, none⟩
          else
            match renderReport processed with
            | .ok msg => ⟨[fetchingNotice, ⟨msg, .info⟩], true, some msg⟩
            | .exn => ⟨[fetchingNotice, ⟨strOf "Error checking quota: ", .error⟩], true, none⟩

/-- The reset-countdown algorithm exactly as the specification words it:
`minutes = ceil(delta / 60000)`, hour form when `minutes ≥ 60`, with
`<hours> = ⌊minutes / 60⌋` and `<mins> = minutes mod 60`.  Spec-side
definition for the refinement claim about the countdown; it is compared with
the source-side `formatRelativeTime`. -/
def resetCountdownSpec (ts : Option ℤ) (now : ℤ) : Str :=
  match ts with
  | none => strOf "-"
  | some target =>
    let delta := target - now
    if delta ≤ 0 then strOf "Ready"
    else
      let minutes : ℤ := ⌈(delta : ℚ) / 60000⌉
      if minutes ≥ 60 then
        intToStr (minutes / 60) ++ strOf "h " ++ intToStr (minutes % 60) ++ strOf "m"
      else intToStr minutes ++ strOf "m"

/-- The grouping predicate of the `Claude` bucket. -/
def isClaudeName (m : ModelDisplay) : Bool := includesStr (toLowerStr m.name) (strOf "claude")

/-- The case-insensitive `gemini` substring test used by the grouping loop. -/
def isGeminiName (m : ModelDisplay) : Bool := includesStr (toLowerStr m.name) (strOf "gemini")

/-- Effective membership predicate of the `Gemini` bucket (second branch of
the first-match-wins chain). -/
def inGeminiBucket (m : ModelDisplay) : Bool := !isClaudeName m && isGeminiName m

/-- Effective membership predicate of the `Other` bucket (fall-through). -/
def inOtherBucket (m : ModelDisplay) : Bool := !isClaudeName m && !isGeminiName m

/-- The rational 1/2, built by the reduced-fraction constructor so that the
kernel can evaluate with it. -/
def qHalf : ℚ := Rat.mk' 1 2 (by decide) (by decide)

/-- The rational 2, an out-of-range remaining fraction. -/
def qTwo : ℚ := Rat.mk' 2 1 (by decide) (by decide)

/-- Sample raw entry: a Claude model with half its quota left, a limit string
of "1000" and a reset 90 minutes after instant 0. -/
def claudeRaw : RawModel :=
  ⟨some (strOf "Claude Opus"), false, some ⟨some qHalf, some (strOf "1000"), some 5400000⟩⟩

/-- Sample raw entry whose remaining fraction 2 lies outside [0, 1]. -/
def overRaw : RawModel := ⟨some (strOf "Claude Opus"), false, some ⟨some qTwo, none, none⟩⟩

/-- Sample raw entry carrying the deprecated-family substring. -/
def gemini25Raw : RawModel := ⟨some (strOf "Gemini 2.5 Pro"), false, some ⟨some qHalf, none, none⟩⟩

/-- Sample raw entry with the internal flag set. -/
def internalRaw : RawModel := ⟨some (strOf "Hidden"), true, none⟩

/-- Sample raw entry whose display name contains both family substrings. -/
def hybridRaw : RawModel := ⟨some (strOf "Claude Gemini Hybrid"), false, none⟩

/-- The normalized record of `hybridRaw`. -/
def hybridDisp : ModelDisplay := toModelDisplay 0 hybridRaw

/-- Credential with only the `access` field set. -/
def tokAuth : AntigravityAuth := ⟨some (strOf "tok"), none, none, none, none⟩

/-- Credential whose `access` field is present but empty while the legacy
`accessToken` field holds a token. -/
def emptyAccessAuth : AntigravityAuth := ⟨some [], none, none, none, some (strOf "tok")⟩

/-- Credential with none of the token aliases set. -/
def noTokenAuth : AntigravityAuth := ⟨none, none, none, none, none⟩

lemma roundTimes100_eq_jsRound (q : ℚ) : roundTimes100 q = jsRound (q * 100) := by
  have hbne : ((q.den : ℚ)) ≠ 0 := by
    exact_mod_cast q.den_nz
  have key : q * 100 + 1/2 = ((200 * q.num + (q.den : ℤ) : ℤ) : ℚ) / ((2 * q.den : ℕ) : ℚ) := by
    conv_lhs => rw [← Rat.num_div_den q]
    push_cast
    field_simp
    ring
  unfold roundTimes100 jsRound
  rw [key, Rat.floor_intCast_div_natCast]
  push_cast
  ring_nf

lemma roundedFill_eq_jsRound (p w : ℤ) : roundedFill p w = jsRound ((p : ℚ) / 100 * w) := by
  have key : (p : ℚ) / 100 * w + 1/2 = ((2 * p * w + 100 : ℤ) : ℚ) / ((200 : ℕ) : ℚ) := by
    push_cast
    ring
  unfold roundedFill jsRound
  rw [key, Rat.floor_intCast_div_natCast]
  norm_num

lemma ceilDiv_eq_ceil (a : ℤ) (b : ℕ) : ceilDiv a (b : ℤ) = ⌈(a : ℚ) / (b : ℚ)⌉ := by
  unfold ceilDiv
  have h1 : ⌊((-a : ℤ) : ℚ) / (b : ℚ)⌋ = -a / (b : ℤ) := Rat.floor_intCast_div_natCast (-a) b
  have h2 : ((-a : ℤ) : ℚ) / (b : ℚ) = -((a : ℚ) / (b : ℚ)) := by push_cast; ring
  rw [h2] at h1
  rw [← h1, Int.floor_neg]
  ring

lemma roundTimes100_bounds {q : ℚ} (h0 : 0 ≤ q) (h1 : q ≤ 1) :
    0 ≤ roundTimes100 q ∧ roundTimes100 q ≤ 100 := by
  rw [roundTimes100_eq_jsRound]
  unfold jsRound
  constructor
  · exact Int.le_floor.mpr (by push_cast; nlinarith)
  · have h : ⌊q * 100 + 1/2⌋ < 101 := Int.floor_lt.mpr (by push_cast; nlinarith)
    omega

lemma roundedFill_bounds {p : ℤ} (h0 : 0 ≤ p) (h1 : p ≤ 100) :
    0 ≤ roundedFill p 10 ∧ roundedFill p 10 ≤ 10 := by
  unfold roundedFill
  constructor <;> omega

lemma roundTimes100_zero : roundTimes100 0 = 0 := by decide

@[simp] lemma bind_ok {α β : Type} (a : α) (f : α → JsValue β) :
    (JsValue.ok a >>= f) = f a := rfl

@[simp] lemma bind_exn {α β : Type} (f : α → JsValue β) :
    ((JsValue.exn : JsValue α) >>= f) = .exn := rfl

@[simp] lemma pure_eq_ok {α : Type} (a : α) : (pure a : JsValue α) = .ok a := rfl

lemma renderLines_length {mn mr : ℕ} :
    ∀ {l : List ModelDisplay} {ls : List Str},
      renderLines mn mr l = .ok ls → ls.length = l.length := by
  intro l
  induction l with
  | nil =>
    intro ls h
    simp only [renderLines, pure_eq_ok, JsValue.ok.injEq] at h
    simp [← h]
  | cons m ms ih =>
    intro ls h
    simp only [renderLines] at h
    cases hm : renderModelLine mn mr m with
    | exn => rw [hm] at h; simp at h
    | ok line =>
      rw [hm] at h
      simp only [bind_ok] at h
      cases hr : renderLines mn mr ms with
      | exn => rw [hr] at h; simp at h
      | ok rest =>
        rw [hr] at h
        simp only [bind_ok, pure_eq_ok, JsValue.ok.injEq] at h
        rw [← h]
        simp [ih hr]

lemma renderModelLine_ok_ne_blank {mn mr : ℕ} {m : ModelDisplay} {s : Str}
    (h : renderModelLine mn mr m = .ok s) (hicon : m.icon ≠ []) : s ≠ [] := by
  unfold renderModelLine at h
  cases hb : getProgressBar m.remainingPercent 10 with
  | exn => rw [hb] at h; simp at h
  | ok bar =>
    rw [hb] at h
    simp only [bind_ok, pure_eq_ok, JsValue.ok.injEq] at h
    intro hs
    rw [← h] at hs
    simp [List.append_eq_nil] at hs
    exact hicon hs.1

lemma renderLines_ne_blank {mn mr : ℕ} :
    ∀ {l : List ModelDisplay} {ls : List Str},
      renderLines mn mr l = .ok ls → (∀ m ∈ l, m.icon ≠ []) → ∀ s ∈ ls, s ≠ [] := by
  intro l
  induction l with
  | nil =>
    intro ls h _
    simp only [renderLines, pure_eq_ok, JsValue.ok.injEq] at h
    simp [← h]
  | cons m ms ih =>
    intro ls h hic
    simp only [renderLines] at h
    cases hm : renderModelLine mn mr m with
    | exn => rw [hm] at h; simp at h
    | ok line =>
      rw [hm] at h
      simp only [bind_ok] at h
      cases hr : renderLines mn mr ms with
      | exn => rw [hr] at h; simp at h
      | ok rest =>
        rw [hr] at h
        simp only [bind_ok, pure_eq_ok, JsValue.ok.injEq] at h
        rw [← h]
        intro s hs
        rcases List.mem_cons.mp hs with h1 | h2
        · rw [h1]
          exact renderModelLine_ok_ne_blank hm (hic m (by simp))
        · exact ih hr (fun x hx => hic x (by simp [hx])) s h2

lemma toModelDisplay_percent (now : ℤ) (m : RawModel) :
    (toModelDisplay now m).remainingPercent =
      roundTimes100 ((m.quotaInfo.bind QuotaInfo.remainingFraction).getD 0) := rfl

lemma toModelDisplay_icon (now : ℤ) (m : RawModel) :
    (toModelDisplay now m).icon = getModelIcon (toModelDisplay now m).name := rfl

lemma getModelIcon_ne_nil (name : Str) : getModelIcon name ≠ [] := by
  unfold getModelIcon
  dsimp only
  split_ifs <;> decide

lemma insertSorted_perm (m : ModelDisplay) (l : List ModelDisplay) :
    (insertSorted m l).Perm (m :: l) := by
  induction l with
  | nil => exact List.Perm.refl _
  | cons b bs ih =>
    unfold insertSorted
    by_cases h : nameLe m b
    · simp [h]
    · simp only [h, if_false, Bool.false_eq_true]
      exact (List.Perm.cons b ih).trans (List.Perm.swap m b bs)

lemma sortModels_perm (l : List ModelDisplay) : (sortModels l).Perm l := by
  induction l with
  | nil => exact List.Perm.refl _
  | cons a as ih =>
    unfold sortModels
    exact (insertSorted_perm a (sortModels as)).trans (List.Perm.cons a ih)

lemma processModels_icon {now : ℤ} {models : List RawModel} {m : ModelDisplay}
    (h : m ∈ processModels now models) : m.icon ≠ [] := by
  unfold processModels at h
  have h2 := (sortModels_perm _).mem_iff.mp h
  rcases List.mem_map.mp h2 with ⟨raw, _, hraw⟩
  rw [← hraw, toModelDisplay_icon]
  exact getModelIcon_ne_nil _

lemma classifyStep_eq (g : Groups) (m : ModelDisplay) :
    classifyStep g m =
      if isClaudeName m then { g with claude := g.claude ++ [m] }
      else if isGeminiName m then { g with gemini := g.gemini ++ [m] }
      else { g with other := g.other ++ [m] } := rfl

lemma foldl_classifyStep (l : List ModelDisplay) (g : Groups) :
    l.foldl classifyStep g =
      ⟨g.claude ++ l.filter isClaudeName,
       g.gemini ++ l.filter inGeminiBucket,
       g.other ++ l.filter inOtherBucket⟩ := by
  induction l generalizing g with
  | nil => simp
  | cons m ms ih =>
    simp only [List.foldl_cons, List.filter_cons]
    rw [ih, classifyStep_eq]
    cases h1 : isClaudeName m with
    | true =>
      simp [inGeminiBucket, inOtherBucket, h1]
    | false =>
      cases h2 : isGeminiName m with
      | true => simp [inGeminiBucket, inOtherBucket, h1, h2]
      | false => simp [inGeminiBucket, inOtherBucket, h1, h2]

lemma groupModels_eq (l : List ModelDisplay) :
    groupModels l =
      ⟨l.filter isClaudeName, l.filter inGeminiBucket, l.filter inOtherBucket⟩ := by
  unfold groupModels
  rw [foldl_classifyStep]
  simp

lemma groupModels_perm (l : List ModelDisplay) :
    ((groupModels l).claude ++ (groupModels l).gemini ++ (groupModels l).other).Perm l := by
  rw [groupModels_eq]
  dsimp only
  have h2 : l.filter inGeminiBucket = (l.filter (fun m => !isClaudeName m)).filter isGeminiName := by
    rw [List.filter_filter]
    apply List.filter_congr
    intro a _
    simp [inGeminiBucket, Bool.and_comm]
  have h3 : l.filter inOtherBucket =
      (l.filter (fun m => !isClaudeName m)).filter (fun m => !isGeminiName m) := by
    rw [List.filter_filter]
    apply List.filter_congr
    intro a _
    simp [inOtherBucket, Bool.and_comm]
  rw [h2, h3, List.append_assoc]
  exact ((List.filter_append_perm _ _).append_left _).trans (List.filter_append_perm _ l)

lemma mem_groupModels_claude {l : List ModelDisplay} {m : ModelDisplay} :
    m ∈ (groupModels l).claude ↔ m ∈ l ∧ isClaudeName m = true := by
  rw [groupModels_eq]
  exact List.mem_filter

lemma mem_groupModels_gemini {l : List ModelDisplay} {m : ModelDisplay} :
    m ∈ (groupModels l).gemini ↔ m ∈ l ∧ inGeminiBucket m = true := by
  rw [groupModels_eq]
  exact List.mem_filter

lemma mem_groupModels_other {l : List ModelDisplay} {m : ModelDisplay} :
    m ∈ (groupModels l).other ↔ m ∈ l ∧ inOtherBucket m = true := by
  rw [groupModels_eq]
  exact List.mem_filter

lemma barColor_no_glyphs (p : ℤ) :
    (barColor p).count '━' = 0 ∧ (barColor p).count '┄' = 0 := by
  unfold barColor
  split_ifs <;> exact ⟨by decide, by decide⟩

lemma count_replicate_self (c : Char) (n : ℕ) : (List.replicate n c).count c = n := by
  simp [List.count_replicate]

lemma count_replicate_ne {c d : Char} (h : ¬ d = c) (n : ℕ) :
    (List.replicate n d).count c = 0 := by
  simp [List.count_replicate, h]

lemma getProgressBar_total {p : ℤ} (h0 : 0 ≤ p) (h1 : p ≤ 100) :
    ∃ s, getProgressBar p 10 = .ok s ∧
      (s.count '━' : ℤ) = roundedFill p 10 ∧ s.count '━' + s.count '┄' = 10 := by
  obtain ⟨hf0, hf10⟩ := roundedFill_bounds h0 h1
  have hrep1 : jsRepeat '━' (roundedFill p 10) =
      .ok (List.replicate (roundedFill p 10).toNat '━') := by
    unfold jsRepeat
    rw [if_neg (by omega)]
  have hrep2 : jsRepeat '┄' (10 - roundedFill p 10) =
      .ok (List.replicate (10 - roundedFill p 10).toNat '┄') := by
    unfold jsRepeat
    rw [if_neg (by omega)]
  refine ⟨barColor p ++ List.replicate (roundedFill p 10).toNat '━' ++ ANSI_DIM ++
      List.replicate (10 - roundedFill p 10).toNat '┄' ++ ANSI_RESET, ?_, ?_, ?_⟩
  · simp only [getProgressBar, hrep1, hrep2, bind_ok, pure_eq_ok]
  · simp only [List.count_append, count_replicate_self,
      count_replicate_ne (show ¬ '┄' = '━' by decide),
      (barColor_no_glyphs p).1, show ANSI_DIM.count '━' = 0 from by decide,
      show ANSI_RESET.count '━' = 0 from by decide]
    omega
  · simp only [List.count_append, count_replicate_self,
      count_replicate_ne (show ¬ '┄' = '━' by decide),
      count_replicate_ne (show ¬ '━' = '┄' by decide),
      (barColor_no_glyphs p).1, (barColor_no_glyphs p).2,
      show ANSI_DIM.count '━' = 0 from by decide,
      show ANSI_RESET.count '━' = 0 from by decide,
      show ANSI_DIM.count '┄' = 0 from by decide,
      show ANSI_RESET.count '┄' = 0 from by decide]
    omega

/-- C1 (amended): the normalized remaining-percent equals
`Math.round (100 × remaining-fraction)`, an absent fraction defaults to
percent 0, and for fractions in [0, 1] the percent lies in [0, 100]; the
containment is a consequence of rounding and is not enforced for fractions
outside [0, 1]. -/
theorem C1_percent_normalisation :
    ∀ (now : ℤ) (m : RawModel),
      (m.quotaInfo.bind QuotaInfo.remainingFraction = none →
        (toModelDisplay now m).remainingPercent = 0) ∧
      (∀ f : ℚ, m.quotaInfo.bind QuotaInfo.remainingFraction = some f →
        (toModelDisplay now m).remainingPercent = jsRound (100 * f) ∧
        (0 ≤ f → f ≤ 1 →
          0 ≤ (toModelDisplay now m).remainingPercent ∧
          (toModelDisplay now m).remainingPercent ≤ 100)) := by
  intro now m
  constructor
  · intro hnone
    rw [toModelDisplay_percent, hnone]
    simp [roundTimes100_zero]
  · intro f hf
    rw [toModelDisplay_percent, hf]
    simp only [Option.getD_some]
    refine ⟨?_, fun h0 h1 => roundTimes100_bounds h0 h1⟩
    rw [roundTimes100_eq_jsRound, mul_comm]

/-- C1 counterexample: the raw entry `overRaw` carries the remaining
fraction 2, and its normalized percent is 200, outside [0, 100] — the percent
is not clamped by construction. -/
theorem C1_counterexample :
    overRaw.quotaInfo.bind QuotaInfo.remainingFraction = some qTwo ∧ (1 : ℚ) < qTwo ∧
    (toModelDisplay 0 overRaw).remainingPercent = 200 ∧
    ¬ (toModelDisplay 0 overRaw).remainingPercent ≤ 100 := by decide

/-- Witness for C1 at the fraction 1/2: the percent is `jsRound 50 = 50`. -/
theorem C1_witness :
    claudeRaw.quotaInfo.bind QuotaInfo.remainingFraction = some qHalf ∧
    (0 : ℚ) ≤ qHalf ∧ qHalf ≤ 1 ∧
    (toModelDisplay 0 claudeRaw).remainingPercent = jsRound (100 * qHalf) ∧
    0 ≤ (toModelDisplay 0 claudeRaw).remainingPercent ∧
    (toModelDisplay 0 claudeRaw).remainingPercent ≤ 100 := by
  have h := (C1_percent_normalisation 0 claudeRaw).2 qHalf (by decide)
  exact ⟨by decide, by decide, by decide, h.1,
    (h.2 (by decide) (by decide)).1, (h.2 (by decide) (by decide)).2⟩

/-- C2: the source countdown function coincides with the specification's
algorithm on every input, returns "-" for an absent timestamp, "Ready" for a
non-future one, and produces "1h 30m" and "45m" for targets 90 and 45 minutes
in the future. -/
theorem C2_reset_countdown :
    (∀ (ts : Option ℤ) (now : ℤ), formatRelativeTime ts now = resetCountdownSpec ts now) ∧
    (∀ now : ℤ, formatRelativeTime none now = strOf "-") ∧
    (∀ target now : ℤ, target - now ≤ 0 →
      formatRelativeTime (some target) now = strOf "Ready") ∧
    (∀ now : ℤ, formatRelativeTime (some (now + 90 * 60000)) now = strOf "1h 30m") ∧
    (∀ now : ℤ, formatRelativeTime (some (now + 45 * 60000)) now = strOf "45m") := by
  refine ⟨?_, fun _ => rfl, ?_, ?_, ?_⟩
  · intro ts now
    cases ts with
    | none => rfl
    | some target =>
      simp only [formatRelativeTime, resetCountdownSpec]
      by_cases hd : target - now ≤ 0
      · simp [hd]
      · rw [if_neg hd, if_neg hd]
        have hcd : ceilDiv (target - now) (1000 * 60) =
            ⌈((target - now : ℤ) : ℚ) / 60000⌉ := by
          have h6 : ((60000 : ℕ) : ℤ) = (1000 * 60 : ℤ) := by norm_num
          have h := ceilDiv_eq_ceil (target - now) 60000
          rw [h6] at h
          rw [h]
          norm_num
        rw [hcd]
        have hm1 : 0 < ⌈((target - now : ℤ) : ℚ) / 60000⌉ := by
          rw [Int.lt_ceil]
          push_cast
          apply div_pos
          · exact_mod_cast (by omega : (0 : ℤ) < target - now)
          · norm_num
        have hequiv : (⌈((target - now : ℤ) : ℚ) / 60000⌉ / 60 > 0) ↔
            (⌈((target - now : ℤ) : ℚ) / 60000⌉ ≥ 60) := by omega
        by_cases h60 : ⌈((target - now : ℤ) : ℚ) / 60000⌉ ≥ 60
        · rw [if_pos (hequiv.mpr h60), if_pos h60]
        · rw [if_neg (fun hc => h60 (hequiv.mp hc)), if_neg h60]
          rw [show ⌈((target - now : ℤ) : ℚ) / 60000⌉ % 60 =
            ⌈((target - now : ℤ) : ℚ) / 60000⌉ from by omega]
  · intro target now h
    simp [formatRelativeTime, h]
  · intro now
    have h : now + 90 * 60000 - now = 5400000 := by ring
    simp only [formatRelativeTime, h]
    decide
  · intro now
    have h : now + 45 * 60000 - now = 2700000 := by ring
    simp only [formatRelativeTime, h]
    decide

/-- Witness for C2 at a timestamp equal to `now`. -/
theorem C2_witness :
    (5 : ℤ) - 5 ≤ 0 ∧ formatRelativeTime (some 5) 5 = strOf "Ready" ∧
    formatRelativeTime (some 5400000) 0 = resetCountdownSpec (some 5400000) 0 :=
  ⟨by decide, C2_reset_countdown.2.2.1 5 5 (by decide), C2_reset_countdown.1 (some 5400000) 0⟩

/-- C3 (amended): the three-tier colour rule holds for every percent and is
applied identically to the percent text and the bar fill; for every percent
in [0, 100] the bar renders `Math.round (10 × p / 100)` filled glyphs with
filled and empty glyph counts summing to the width 10.  (For large
out-of-range percents the bar function throws instead of rendering — see the
counterexample.) -/
theorem C3_color_tiers_and_bar :
    (∀ p : ℤ,
      barColor p = percentColor p ∧
      (percentColor p = ANSI_RED ↔ p ≤ 10) ∧
      (percentColor p = ANSI_YELLOW ↔ 10 < p ∧ p ≤ 30) ∧
      (percentColor p = ANSI_GREEN ↔ 30 < p)) ∧
    (∀ p : ℤ, 0 ≤ p → p ≤ 100 →
      ∃ s, getProgressBar p 10 = .ok s ∧
        (s.count '━' : ℤ) = jsRound (10 * (p : ℚ) / 100) ∧
        s.count '━' + s.count '┄' = 10) := by
  constructor
  · intro p
    have hry : ANSI_RED ≠ ANSI_YELLOW := by decide
    have hrg : ANSI_RED ≠ ANSI_GREEN := by decide
    have hyg : ANSI_YELLOW ≠ ANSI_GREEN := by decide
    refine ⟨rfl, ?_, ?_, ?_⟩ <;> unfold percentColor <;> split_ifs with h1 h2
    · exact iff_of_true rfl h1
    · exact iff_of_false (fun h => hry h.symm) h1
    · exact iff_of_false (fun h => hrg h.symm) h1
    · exact iff_of_false hry (by omega)
    · exact iff_of_true rfl ⟨by omega, h2⟩
    · exact iff_of_false (fun h => hyg h.symm) (by omega)
    · exact iff_of_false hrg (by omega)
    · exact iff_of_false hyg (by omega)
    · exact iff_of_true rfl (by omega)
  · intro p h0 h1
    obtain ⟨s, hs, hcount, hsum⟩ := getProgressBar_total h0 h1
    refine ⟨s, hs, ?_, hsum⟩
    rw [hcount, roundedFill_eq_jsRound]
    congr 1
    ring

/-- C3 counterexample: at percent 200 the requested fill is 20 glyphs, the
empty-glyph count is negative, and `getProgressBar` throws instead of
producing a bar — so the glyph-count property does not hold for every
percent. -/
theorem C3_counterexample :
    roundedFill 200 10 = 20 ∧ getProgressBar 200 10 = JsValue.exn := by decide

/-- Witness for C3 at percent 35 (4 filled glyphs). -/
theorem C3_witness :
    (0 : ℤ) ≤ 35 ∧ (35 : ℤ) ≤ 100 ∧
    ∃ s, getProgressBar 35 10 = .ok s ∧
      (s.count '━' : ℤ) = jsRound (10 * (35 : ℚ) / 100) ∧
      s.count '━' + s.count '┄' = 10 :=
  ⟨by decide, by decide, C3_color_tiers_and_bar.2 35 (by decide) (by decide)⟩

/-- C4: family grouping partitions the sorted normalized list: the three
buckets' concatenation is a permutation of it, and each member lies in the
Claude bucket iff its lowered name contains "claude", in the Gemini bucket
iff it is not a Claude match but contains "gemini", and otherwise in Other —
so the Claude test wins over the Gemini test. -/
theorem C4_grouping_partition :
    ∀ (now : ℤ) (models : List RawModel),
      ((groupModels (processModels now models)).claude ++
        (groupModels (processModels now models)).gemini ++
        (groupModels (processModels now models)).other).Perm (processModels now models) ∧
      (∀ m ∈ processModels now models,
        (m ∈ (groupModels (processModels now models)).claude ↔ isClaudeName m = true) ∧
        (m ∈ (groupModels (processModels now models)).gemini ↔
          (isClaudeName m = false ∧ isGeminiName m = true)) ∧
        (m ∈ (groupModels (processModels now models)).other ↔
          (isClaudeName m = false ∧ isGeminiName m = false))) := by
  intro now models
  refine ⟨groupModels_perm _, ?_⟩
  intro m hm
  refine ⟨?_, ?_, ?_⟩
  · rw [mem_groupModels_claude]
    simp [hm]
  · rw [mem_groupModels_gemini]
    simp [hm, inGeminiBucket, Bool.and_eq_true, Bool.not_eq_true']
  · rw [mem_groupModels_other]
    simp [hm, inOtherBucket, Bool.and_eq_true, Bool.not_eq_true']

set_option maxRecDepth 20000 in
/-- Witness for C4: "Claude Gemini Hybrid" contains both family substrings
and is classified into the Claude bucket. -/
theorem C4_witness :
    hybridDisp ∈ processModels 0 [hybridRaw] ∧
    isClaudeName hybridDisp = true ∧ isGeminiName hybridDisp = true ∧
    hybridDisp ∈ (groupModels (processModels 0 [hybridRaw])).claude ∧
    ((groupModels (processModels 0 [hybridRaw])).claude ++
      (groupModels (processModels 0 [hybridRaw])).gemini ++
      (groupModels (processModels 0 [hybridRaw])).other).Perm
        (processModels 0 [hybridRaw]) := by
  have h := C4_grouping_partition 0 [hybridRaw]
  have hmem : hybridDisp ∈ processModels 0 [hybridRaw] := by decide
  exact ⟨hmem, by decide, by decide, ((h.2 hybridDisp hmem).1).mpr (by decide), h.1⟩

set_option maxRecDepth 20000 in
/-- C5: membership in the filtered list holds exactly for raw entries with a
falsy internal flag, a truthy display name and no "Gemini 2.5" substring; a
"Gemini 2.5 Pro" model in the response is dropped and the rendered report
contains no trace of it. -/
theorem C5_filter_chain :
    (∀ (models : List RawModel) (m : RawModel),
      m ∈ filterModels models ↔
        (m ∈ models ∧ m.isInternal = false ∧ truthy m.displayName = true ∧
          includesStr (m.displayName.getD []) (strOf "Gemini 2.5") = false)) ∧
    filterModels [gemini25Raw] = [] ∧
    processModels 0 [gemini25Raw] = [] ∧
    ((handler (some tokAuth) (some ⟨some [claudeRaw, gemini25Raw]⟩) 0).rendered.map
      (fun msg => includesStr msg (strOf "Gemini 2.5"))) = some false := by
  refine ⟨?_, by decide, by decide, by decide⟩
  intro models m
  unfold filterModels
  rw [List.mem_filter, List.mem_filter]
  unfold passesInternalNameFilter passesDeprecatedFilter
  simp only [Bool.and_eq_true, Bool.not_eq_true', and_assoc]

set_option maxRecDepth 20000 in
/-- Witness for C5: the dropped "Gemini 2.5 Pro" entry. -/
theorem C5_witness :
    (gemini25Raw ∈ filterModels [claudeRaw, gemini25Raw] ↔
      (gemini25Raw ∈ [claudeRaw, gemini25Raw] ∧ gemini25Raw.isInternal = false ∧
        truthy gemini25Raw.displayName = true ∧
        includesStr (gemini25Raw.displayName.getD []) (strOf "Gemini 2.5") = false)) ∧
    gemini25Raw ∉ filterModels [claudeRaw, gemini25Raw] :=
  ⟨C5_filter_chain.1 [claudeRaw, gemini25Raw] gemini25Raw, by decide⟩

/-- C6: with a usable token, a null fetch result or a response without a
models mapping yields the error notice "Failed to fetch quota data." and no
render, while a well-formed response whose models all get filtered out yields
the distinct warning notice "No quota information available." and no render;
the handler returns an outcome in every case. -/
theorem C6_failure_vs_empty :
    ∀ (a : AntigravityAuth) (now : ℤ), truthy (selectToken a) = true →
      handler (some a) none now = ⟨[fetchingNotice, fetchFailedNotice], true, none⟩ ∧
      handler (some a) (some ⟨none⟩) now = ⟨[fetchingNotice, fetchFailedNotice], true, none⟩ ∧
      (∀ (resp : CloudCodeQuotaResponse) (models : List RawModel),
        resp.models = some models → processModels now models = [] →
        handler (some a) (some resp) now = ⟨[fetchingNotice, noQuotaInfoNotice], true, none⟩) ∧
      fetchFailedNotice.msg ≠ noQuotaInfoNotice.msg ∧
      fetchFailedNotice.level = NoticeLevel.error ∧
      noQuotaInfoNotice.level = NoticeLevel.warning := by
  intro a now htok
  refine ⟨by simp [handler, htok], by simp [handler, htok], ?_, by decide, rfl, rfl⟩
  intro resp models hresp hempty
  simp [handler, htok, hresp, hempty]

/-- Witness for C6: fetch failure versus a response whose only model is
internal. -/
theorem C6_witness :
    truthy (selectToken tokAuth) = true ∧
    processModels 0 [internalRaw] = [] ∧
    handler (some tokAuth) none 0 = ⟨[fetchingNotice, fetchFailedNotice], true, none⟩ ∧
    handler (some tokAuth) (some ⟨some [internalRaw]⟩) 0 =
      ⟨[fetchingNotice, noQuotaInfoNotice], true, none⟩ := by
  have h := C6_failure_vs_empty tokAuth 0 (by decide)
  exact ⟨by decide, by decide, h.1, h.2.2.1 ⟨some [internalRaw]⟩ [internalRaw] rfl (by decide)⟩

set_option maxRecDepth 20000 in
/-- C7: `formatLimit` behaves as specified but is dead code — the normalized
display record and the rendered table carry no limit information: with a
model whose limit is "1000", the rendered report contains neither the string
"1000" nor a "Limit" column label (its columns are Model, Usage, Resets). -/
theorem C7_limit_column_missing :
    formatLimit (some (strOf "1000")) = strOf "1000" ∧
    formatLimit none = strOf "-" ∧
    claudeRaw.quotaInfo = some ⟨some qHalf, some (strOf "1000"), some 5400000⟩ ∧
    ((handler (some tokAuth) (some ⟨some [claudeRaw]⟩) 0).rendered.map
      (fun msg => includesStr msg (strOf "1000"))) = some false ∧
    ((handler (some tokAuth) (some ⟨some [claudeRaw]⟩) 0).rendered.map
      (fun msg => includesStr msg (strOf "Limit"))) = some false := by
  refine ⟨by decide, by decide, rfl, by decide, by decide⟩

/-- C8 (amended): the bearer token is the first truthy (present and
non-empty) field among `access`, `accessToken`, `token` in that order; when
none is truthy the handler warns and returns without reaching the fetch. -/
theorem C8_token_selection :
    ∀ (a : AntigravityAuth) (fr : Option CloudCodeQuotaResponse) (now : ℤ),
      (truthy a.access = true → selectToken a = a.access) ∧
      (truthy a.access = false → truthy a.accessToken = true →
        selectToken a = a.accessToken) ∧
      (truthy a.access = false → truthy a.accessToken = false →
        selectToken a = a.token) ∧
      (truthy (selectToken a) = false →
        handler (some a) fr now =
          ⟨[⟨strOf "No access token found in auth.json", .warning⟩], false, none⟩) := by
  intro a fr now
  refine ⟨?_, ?_, ?_, ?_⟩
  · intro h1
    simp [selectToken, jsOrElse, h1]
  · intro h1 h2
    simp [selectToken, jsOrElse, h1, h2]
  · intro h1 h2
    simp [selectToken, jsOrElse, h1, h2]
  · intro h
    simp [handler, h]

/-- C8 counterexample: with `access` present but empty and a non-empty legacy
`accessToken`, the selected bearer token is the `accessToken` value, not the
first present field `access`. -/
theorem C8_counterexample :
    emptyAccessAuth.access = some [] ∧
    selectToken emptyAccessAuth = some (strOf "tok") ∧
    selectToken emptyAccessAuth ≠ emptyAccessAuth.access := by decide

/-- Witness for C8: a credential with no token aliases at all warns and never
fetches; one with a non-empty `access` field selects it. -/
theorem C8_witness :
    truthy (selectToken noTokenAuth) = false ∧
    handler (some noTokenAuth) none 0 =
      ⟨[⟨strOf "No access token found in auth.json", .warning⟩], false, none⟩ ∧
    truthy tokAuth.access = true ∧ selectToken tokAuth = tokAuth.access :=
  ⟨by decide, (C8_token_selection noTokenAuth none 0).2.2.2 (by decide), by decide,
    (C8_token_selection tokAuth none 0).1 (by decide)⟩

set_option maxRecDepth 20000 in
/-- C10: the progress bar is total with exactly 10 bar glyphs for every
percent in [0, 100]; at the unclamped percent 200 (fraction 2) the requested
fill is 20, the empty-repeat count is negative and the function throws; the
handler consequently ends that invocation in its catch-all error notice
instead of rendering. -/
theorem C10_unclamped_crash :
    (∀ p : ℤ, 0 ≤ p → p ≤ 100 →
      ∃ s, getProgressBar p 10 = .ok s ∧ s.count '━' + s.count '┄' = 10) ∧
    (roundedFill 200 10 = 20 ∧ (10 : ℤ) - roundedFill 200 10 < 0 ∧
      getProgressBar 200 10 = JsValue.exn) ∧
    ((toModelDisplay 0 overRaw).remainingPercent = 200 ∧
      handler (some tokAuth) (some ⟨some [overRaw]⟩) 0 =
        ⟨[fetchingNotice, ⟨strOf "Error checking quota: ", .error⟩], true, none⟩) := by
  refine ⟨?_, by decide, by decide⟩
  intro p h0 h1
  obtain ⟨s, hs, _, hsum⟩ := getProgressBar_total h0 h1
  exact ⟨s, hs, hsum⟩

/-- Witness for C10 at percent 50. -/
theorem C10_witness :
    (0 : ℤ) ≤ 50 ∧ (50 : ℤ) ≤ 100 ∧
    ∃ s, getProgressBar 50 10 = .ok s ∧ s.count '━' + s.count '┄' = 10 :=
  ⟨by decide, by decide, C10_unclamped_crash.1 50 (by decide) (by decide)⟩

lemma isEmpty_false_of_ne_nil {α : Type} (l : List α) (hl : l ≠ []) : l.isEmpty = false := by
  simp [List.isEmpty_iff, hl]

/-- C9: for a non-empty processed list, the group section of the rendered
output is exactly the non-empty buckets' line blocks joined by single blank
lines — one blank line between each two adjacent non-empty buckets in the
fixed Claude, Gemini, Other order, none before the first or after the last,
and no model line is itself blank. -/
theorem C9_group_spacers :
    ∀ (now : ℤ) (models : List RawModel) (mn mr : ℕ) (ls : List Str),
      processModels now models ≠ [] →
      renderGroupsSection mn mr (groupModels (processModels now models)) = .ok ls →
      ∃ lc lg lo,
        renderLines mn mr (groupModels (processModels now models)).claude = .ok lc ∧
        renderLines mn mr (groupModels (processModels now models)).gemini = .ok lg ∧
        renderLines mn mr (groupModels (processModels now models)).other = .ok lo ∧
        ls = List.intercalate [([] : Str)] ([lc, lg, lo].filter (fun p => !p.isEmpty)) ∧
        [lc, lg, lo].filter (fun p => !p.isEmpty) ≠ [] ∧
        (∀ p ∈ [lc, lg, lo], ∀ line ∈ p, line ≠ ([] : Str)) := by
  intro now models mn mr ls hne hsec
  simp only [renderGroupsSection] at hsec
  cases hc : renderLines mn mr (groupModels (processModels now models)).claude with
  | exn => rw [hc] at hsec; simp at hsec
  | ok lc =>
  rw [hc, bind_ok] at hsec
  cases hgm : renderLines mn mr (groupModels (processModels now models)).gemini with
  | exn => rw [hgm] at hsec; simp at hsec
  | ok lg =>
  rw [hgm, bind_ok] at hsec
  cases ho : renderLines mn mr (groupModels (processModels now models)).other with
  | exn => rw [ho] at hsec; simp at hsec
  | ok lo =>
  rw [ho, bind_ok] at hsec
  simp only [pure_eq_ok, JsValue.ok.injEq] at hsec
  have hceq : (lc = []) ↔ ((groupModels (processModels now models)).claude = []) := by
    rw [← List.length_eq_zero, ← List.length_eq_zero, renderLines_length hc]
  have hgeq : (lg = []) ↔ ((groupModels (processModels now models)).gemini = []) := by
    rw [← List.length_eq_zero, ← List.length_eq_zero, renderLines_length hgm]
  have hoeq : (lo = []) ↔ ((groupModels (processModels now models)).other = []) := by
    rw [← List.length_eq_zero, ← List.length_eq_zero, renderLines_length ho]
  have hnb : ∀ p ∈ [lc, lg, lo], ∀ line ∈ p, line ≠ ([] : Str) := by
    intro p hp
    rcases List.mem_cons.mp hp with h | hp2
    · subst h
      exact renderLines_ne_blank hc
        (fun m hm => processModels_icon (mem_groupModels_claude.mp hm).1)
    rcases List.mem_cons.mp hp2 with h | hp3
    · subst h
      exact renderLines_ne_blank hgm
        (fun m hm => processModels_icon (mem_groupModels_gemini.mp hm).1)
    rcases List.mem_cons.mp hp3 with h | hp4
    · subst h
      exact renderLines_ne_blank ho
        (fun m hm => processModels_icon (mem_groupModels_other.mp hm).1)
    · simp at hp4
  refine ⟨lc, lg, lo, rfl, rfl, rfl, ?_, ?_, hnb⟩ <;>
    by_cases h1 : (groupModels (processModels now models)).claude = [] <;>
      by_cases h2 : (groupModels (processModels now models)).gemini = [] <;>
        by_cases h3 : (groupModels (processModels now models)).other = []
  · exfalso
    have hperm := groupModels_perm (processModels now models)
    rw [h1, h2, h3] at hperm
    exact hne hperm.symm.eq_nil
  · have gC : (groupModels (processModels now models)).claude.isEmpty = true := by rw [h1]; rfl
    have gG : (groupModels (processModels now models)).gemini.isEmpty = true := by rw [h2]; rfl
    have gO : (groupModels (processModels now models)).other.isEmpty = false :=
      isEmpty_false_of_ne_nil _ h3
    have e1 : lc = [] := hceq.mpr h1
    have e2 : lg = [] := hgeq.mpr h2
    rw [← hsec, e1, e2]
    simp [gC, gG, gO, isEmpty_false_of_ne_nil _ (fun hh => h3 (hoeq.mp hh)),
      List.intercalate, List.intersperse]
  · have gC : (groupModels (processModels now models)).claude.isEmpty = true := by rw [h1]; rfl
    have gG : (groupModels (processModels now models)).gemini.isEmpty = false :=
      isEmpty_false_of_ne_nil _ h2
    have gO : (groupModels (processModels now models)).other.isEmpty = true := by rw [h3]; rfl
    have e1 : lc = [] := hceq.mpr h1
    have e3 : lo = [] := hoeq.mpr h3
    rw [← hsec, e1, e3]
    simp [gC, gG, gO, isEmpty_false_of_ne_nil _ (fun hh => h2 (hgeq.mp hh)),
      List.intercalate, List.intersperse]
  · have gC : (groupModels (processModels now models)).claude.isEmpty = true := by rw [h1]; rfl
    have gG : (groupModels (processModels now models)).gemini.isEmpty = false :=
      isEmpty_false_of_ne_nil _ h2
    have gO : (groupModels (processModels now models)).other.isEmpty = false :=
      isEmpty_false_of_ne_nil _ h3
    have e1 : lc = [] := hceq.mpr h1
    rw [← hsec, e1]
    simp [gC, gG, gO, isEmpty_false_of_ne_nil _ (fun hh => h2 (hgeq.mp hh)),
      isEmpty_false_of_ne_nil _ (fun hh => h3 (hoeq.mp hh)),
      List.intercalate, List.intersperse]
  · have gC : (groupModels (processModels now models)).claude.isEmpty = false :=
      isEmpty_false_of_ne_nil _ h1
    have gG : (groupModels (processModels now models)).gemini.isEmpty = true := by rw [h2]; rfl
    have gO : (groupModels (processModels now models)).other.isEmpty = true := by rw [h3]; rfl
    have e2 : lg = [] := hgeq.mpr h2
    have e3 : lo = [] := hoeq.mpr h3
    rw [← hsec, e2, e3]
    simp [gC, gG, gO, isEmpty_false_of_ne_nil _ (fun hh => h1 (hceq.mp hh)),
      List.intercalate, List.intersperse]
  · have gC : (groupModels (processModels now models)).claude.isEmpty = false :=
      isEmpty_false_of_ne_nil _ h1
    have gG : (groupModels (processModels now models)).gemini.isEmpty = true := by rw [h2]; rfl
    have gO : (groupModels (processModels now models)).other.isEmpty = false :=
      isEmpty_false_of_ne_nil _ h3
    have e2 : lg = [] := hgeq.mpr h2
    rw [← hsec, e2]
    simp [gC, gG, gO, isEmpty_false_of_ne_nil _ (fun hh => h1 (hceq.mp hh)),
      isEmpty_false_of_ne_nil _ (fun hh => h3 (hoeq.mp hh)),
      List.intercalate, List.intersperse]
  · have gC : (groupModels (processModels now models)).claude.isEmpty = false :=
      isEmpty_false_of_ne_nil _ h1
    have gG : (groupModels (processModels now models)).gemini.isEmpty = false :=
      isEmpty_false_of_ne_nil _ h2
    have gO : (groupModels (processModels now models)).other.isEmpty = true := by rw [h3]; rfl
    have e3 : lo = [] := hoeq.mpr h3
    rw [← hsec, e3]
    simp [gC, gG, gO, isEmpty_false_of_ne_nil _ (fun hh => h1 (hceq.mp hh)),
      isEmpty_false_of_ne_nil _ (fun hh => h2 (hgeq.mp hh)),
      List.intercalate, List.intersperse]
  · have gC : (groupModels (processModels now models)).claude.isEmpty = false :=
      isEmpty_false_of_ne_nil _ h1
    have gG : (groupModels (processModels now models)).gemini.isEmpty = false :=
      isEmpty_false_of_ne_nil _ h2
    have gO : (groupModels (processModels now models)).other.isEmpty = false :=
      isEmpty_false_of_ne_nil _ h3
    rw [← hsec]
    simp [gC, gG, gO, isEmpty_false_of_ne_nil _ (fun hh => h1 (hceq.mp hh)),
      isEmpty_false_of_ne_nil _ (fun hh => h2 (hgeq.mp hh)),
      isEmpty_false_of_ne_nil _ (fun hh => h3 (hoeq.mp hh)),
      List.intercalate, List.intersperse]
  · exfalso
    have hperm := groupModels_perm (processModels now models)
    rw [h1, h2, h3] at hperm
    exact hne hperm.symm.eq_nil
  · have e1 : lc = [] := hceq.mpr h1
    have e2 : lg = [] := hgeq.mpr h2
    simp [e1, e2, isEmpty_false_of_ne_nil _ (fun hh => h3 (hoeq.mp hh))]
  · have e1 : lc = [] := hceq.mpr h1
    have e3 : lo = [] := hoeq.mpr h3
    simp [e1, e3, isEmpty_false_of_ne_nil _ (fun hh => h2 (hgeq.mp hh))]
  · have e1 : lc = [] := hceq.mpr h1
    simp [e1, isEmpty_false_of_ne_nil _ (fun hh => h2 (hgeq.mp hh)),
      isEmpty_false_of_ne_nil _ (fun hh => h3 (hoeq.mp hh))]
  · have e2 : lg = [] := hgeq.mpr h2
    have e3 : lo = [] := hoeq.mpr h3
    simp [e2, e3, isEmpty_false_of_ne_nil _ (fun hh => h1 (hceq.mp hh))]
  · have e2 : lg = [] := hgeq.mpr h2
    simp [e2, isEmpty_false_of_ne_nil _ (fun hh => h1 (hceq.mp hh)),
      isEmpty_false_of_ne_nil _ (fun hh => h3 (hoeq.mp hh))]
  · have e3 : lo = [] := hoeq.mpr h3
    simp [e3, isEmpty_false_of_ne_nil _ (fun hh => h1 (hceq.mp hh)),
      isEmpty_false_of_ne_nil _ (fun hh => h2 (hgeq.mp hh))]
  · simp [isEmpty_false_of_ne_nil _ (fun hh => h1 (hceq.mp hh)),
      isEmpty_false_of_ne_nil _ (fun hh => h2 (hgeq.mp hh)),
      isEmpty_false_of_ne_nil _ (fun hh => h3 (hoeq.mp hh))]

set_option maxRecDepth 40000 in
/-- Witness for C9 with a single-model response. -/
theorem C9_witness :
    processModels 0 [claudeRaw] ≠ [] ∧
    ∃ ls, renderGroupsSection 5 6 (groupModels (processModels 0 [claudeRaw])) = JsValue.ok ls ∧
      ∃ lc lg lo,
        renderLines 5 6 (groupModels (processModels 0 [claudeRaw])).claude = JsValue.ok lc ∧
        renderLines 5 6 (groupModels (processModels 0 [claudeRaw])).gemini = JsValue.ok lg ∧
        renderLines 5 6 (groupModels (processModels 0 [claudeRaw])).other = JsValue.ok lo ∧
        ls = List.intercalate [([] : Str)] ([lc, lg, lo].filter (fun p => !p.isEmpty)) ∧
        [lc, lg, lo].filter (fun p => !p.isEmpty) ≠ [] ∧
        (∀ p ∈ [lc, lg, lo], ∀ line ∈ p, line ≠ ([] : Str)) := by
  have hne : processModels 0 [claudeRaw] ≠ [] := by decide
  obtain ⟨ls, hls⟩ :
      ∃ ls, renderGroupsSection 5 6 (groupModels (processModels 0 [claudeRaw])) =
        JsValue.ok ls := ⟨_, rfl⟩
  exact ⟨hne, ls, hls, C9_group_spacers 0 [claudeRaw] 5 6 ls hne hls⟩

end AntigravityQuota
